import Mathlib

/-!
Verification of the alice_bot BSC scanner core (src/core/scanner.py, with the
address validator duplicated in src/core/utils.py) against its natural-language
specification.  The Python code is shallowly embedded: dictionaries of optional
string fields become structures of `Option String`, machine-level time becomes
an explicit rational clock, the outbound HTTP interaction becomes an explicit
list of envelope responses consumed in order, and exceptions become `Option` or
dedicated outcome types.
-/

namespace AliceBot

/-! ## Python primitive modelling -/

/-- Model of Python `str.lower()` for the ASCII strings this program handles:
lowercase each character. -/
def pyLower (s : String) : String := String.mk (s.toList.map Char.toLower)

/-- Digits of a decimal literal folded to a natural number. -/
def digitsToNat (l : List Char) : Nat :=
  l.foldl (fun a c => 10 * a + (c.toNat - 48)) 0

/-- Nonempty and all decimal digits. -/
def allDigits (l : List Char) : Bool := !l.isEmpty && l.all Char.isDigit

/-- Model of Python `int(s)` on the strings this program receives: an optional
sign followed by one or more decimal digits.  Python additionally tolerates
surrounding whitespace and grouping underscores, which no input considered in
this development uses; everything this model parses, Python parses to the same
integer. -/
def pyIntOfString (s : String) : Option Int :=
  match s.toList with
  | '-' :: rest => if allDigits rest then some (-(digitsToNat rest : Int)) else none
  | '+' :: rest => if allDigits rest then some (digitsToNat rest : Int) else none
  | l => if allDigits l then some (digitsToNat l : Int) else none

/-- Hexadecimal digit, either case (the character class accepted by a digit
position of Python `int(s, 16)`). -/
def isHexDigitChar (c : Char) : Bool :=
  c.isDigit || (97 ≤ c.toNat && c.toNat ≤ 102) || (65 ≤ c.toNat && c.toNat ≤ 70)

/-- Nonempty and all hexadecimal digits. -/
def allHexDigits (l : List Char) : Bool := !l.isEmpty && l.all isHexDigitChar

/-- The body of a base-16 literal: an optional `0x`/`0X` prefix followed by hex
digits. -/
def hexBody (l : List Char) : Bool :=
  match l with
  | c1 :: c2 :: rest =>
    if c1 = '0' ∧ (c2 = 'x' ∨ c2 = 'X') then allHexDigits rest
    else allHexDigits (c1 :: c2 :: rest)
  | _ => allHexDigits l

/-- Model of whether Python `int(s, 16)` succeeds: an optional sign, then an
optional `0x`/`0X` prefix, then one or more hex digits.  Python additionally
tolerates surrounding whitespace and grouping underscores, omitted here;
every list this model accepts is accepted by Python as well. -/
def pyIntBase16Ok (l : List Char) : Bool :=
  match l with
  | [] => false
  | c :: rest =>
    if c = '-' ∨ c = '+' then hexBody rest else hexBody (c :: rest)

/-- Whether `needle` occurs as a contiguous run starting at some suffix. -/
def containsSubAux (needle : List Char) : List Char → Bool
  | [] => needle.isEmpty
  | c :: rest => needle.isPrefixOf (c :: rest) || containsSubAux needle rest

/-- Python substring test `needle in hay`. -/
def containsSub (needle hay : String) : Bool :=
  containsSubAux needle.toList hay.toList

/-! ## Data model

`RawTransfer` embeds one record of the API `result` array.  A field that the
JSON object lacks is `none`; `tx.get(key, default)` becomes `Option.getD`.
The Python dict keys `from` and `to` are rendered `fromAddr` and `toAddr`. -/

structure RawTransfer where
  hash : Option String
  timeStamp : Option String
  fromAddr : Option String
  toAddr : Option String
  tokenName : Option String
  tokenSymbol : Option String
  value : Option String
  tokenDecimal : Option String
  functionName : Option String
  input : Option String
  deriving DecidableEq

/-- The processed dictionary built per record by `_process_transactions`. -/
structure NormalizedTx where
  hash : String
  method : String
  age : String
  fromAddr : String
  toAddr : String
  token : String
  deriving DecidableEq

/-- One JSON envelope returned by the BSCScan endpoint:
`{status, message, result}`. -/
structure ApiResponse where
  status : String
  message : String
  result : List RawTransfer
  deriving DecidableEq

/-! ## Address validation

`BSCScanner._validate_wallet_address` (scanner.py lines 78 to 95); the utils
function `AddressValidator.is_valid_bsc_address` (utils.py lines 78 to 95) has
the identical body.  The code strips a literal lowercase `0x` prefix, requires
length 40, and then asks whether Python `int(stripped, 16)` succeeds. -/

/-- The prefix strip `address[2:] if address.startswith('0x') else address`. -/
def stripHexPrefix (l : List Char) : List Char :=
  match l with
  | c1 :: c2 :: rest => if c1 = '0' ∧ c2 = 'x' then rest else c1 :: c2 :: rest
  | _ => l

def validateWalletAddress (address : String) : Bool :=
  if address = "" then false
  else
    let stripped := stripHexPrefix address.toList
    if stripped.length ≠ 40 then false
    else pyIntBase16Ok stripped

/-! ## Per-record normalization

`_extract_method`, `_calculate_age`, `_format_token_info` and the record loop
of `_process_transactions` (scanner.py lines 154 to 253). -/

/-- The `method_map.get(method_sig, 'unknown')` table lookup of
`_extract_method`. -/
def methodMap (sig : String) : String :=
  if sig = "0xa9059cbb" then "transfer"
  else if sig = "0x23b872dd" then "transferFrom"
  else if sig = "0x095ea7b3" then "approve"
  else if sig = "0xa0712d68" then "mint"
  else if sig = "0x42966c68" then "burn"
  else "unknown"

/-- `_extract_method` (scanner.py lines 197 to 217).  Note both dictionary
lookups are Python truthiness tests, so a present-but-empty `functionName` or
`input` behaves like an absent one. -/
def extractMethod (tx : RawTransfer) : String :=
  if tx.functionName.getD "" ≠ "" then tx.functionName.getD ""
  else
    let inputData := tx.input.getD ""
    if inputData ≠ "" ∧ 10 ≤ inputData.length then
      methodMap (String.mk (inputData.toList.take 10))
    else "transfer"

/-- `_calculate_age` (scanner.py lines 219 to 239).  `now` and the parsed
timestamp are Unix seconds; `datetime` subtraction yields a `timedelta` whose
`days` is the floor of the difference over 86400 and whose `seconds` is the
nonnegative remainder, which the floor division and floor modulus reproduce.
The model assumes the timestamp is inside the range `datetime` accepts, as
every timestamp considered in this development is. -/
def calculateAge (timestampStr : String) (now : Int) : String :=
  match pyIntOfString timestampStr with
  | none => "Unknown"
  | some ts =>
    let diff := now - ts
    let days := Int.fdiv diff 86400
    let secs := (Int.fmod diff 86400).toNat
    if 0 < days then toString days ++ " days ago"
    else if 3600 < secs then toString (secs / 3600) ++ " hours ago"
    else if 60 < secs then toString (secs / 60) ++ " minutes ago"
    else "Just now"

/-- Zero-padded six-digit rendering of a number below 1000000. -/
def pad6 (n : Nat) : String :=
  let s := toString n
  String.mk (List.replicate (6 - s.length) '0') ++ s

/-- Round the exact fraction `N / D` (with `D` positive) to the nearest
integer, ties to even: the rounding a fixed-point rendering performs. -/
def roundHalfEvenInt (N D : Int) : Int :=
  let f := Int.fdiv N D
  let r := N - f * D
  if 2 * r < D then f
  else if D < 2 * r then f + 1
  else if f % 2 = 0 then f else f + 1

/-- The Python expression `f"{int(value) / (10 ** decimals):.6f}"`: the
quotient `v / 10 ^ dec` rendered with exactly six fractional digits, computed
here as the half-even rounding of the integer fraction
`v * 10 ^ 6 / 10 ^ dec`.  The Python division is performed in binary floating
point; the model renders the exact quotient, with which the float path agrees
at every input considered in this development. -/
def formatFixed6 (v : Int) (dec : Int) : String :=
  let N : Int :=
    if 0 ≤ dec then v * 1000000 else v * 1000000 * (10 : Int) ^ (-dec).toNat
  let D : Int := if 0 ≤ dec then (10 : Int) ^ dec.toNat else 1
  let n := roundHalfEvenInt N D
  let render : Nat → String := fun m =>
    toString (m / 1000000) ++ "." ++ pad6 (m % 1000000)
  if n < 0 then "-" ++ render n.natAbs else render n.natAbs

/-- `_format_token_info` (scanner.py lines 241 to 253).  The statement
`decimals = int(tx.get('tokenDecimal', '18'))` sits BEFORE the guarded block,
so a token-decimal string that `int` rejects raises out of the function, which
the result `none` models; only the later `int(value)` failure is caught and
mapped to the amount-free fallback string. -/
def formatTokenInfo (tx : RawTransfer) : Option String :=
  let tokenName := tx.tokenName.getD "Unknown"
  let tokenSymbol := tx.tokenSymbol.getD "UNK"
  let value := tx.value.getD "0"
  match pyIntOfString (tx.tokenDecimal.getD "18") with
  | none => none
  | some decimals =>
    match pyIntOfString value with
    | none => some (tokenSymbol ++ " (" ++ tokenName ++ ")")
    | some v =>
      some (formatFixed6 v decimals ++ " " ++ tokenSymbol ++ " (" ++ tokenName ++ ")")

/-- The per-record body of the `_process_transactions` loop.  The result is
`none` exactly when the record raises (which only `_format_token_info` can do,
through its unguarded `int(tokenDecimal)`), in which case the `except` clause
of the loop skips the record. -/
def processTx (now : Int) (tx : RawTransfer) : Option NormalizedTx :=
  match formatTokenInfo tx with
  | none => none
  | some token =>
    some
      { hash := tx.hash.getD "N/A"
        method := extractMethod tx
        age := calculateAge (tx.timeStamp.getD "0") now
        fromAddr := pyLower (tx.fromAddr.getD "N/A")
        toAddr := pyLower (tx.toAddr.getD "N/A")
        token := token }

/-- The duplicate filter of `_process_transactions` (scanner.py lines 184 to
195): walk the processed list, keep a record only when its hash was not seen
before. -/
def dedupAux : List NormalizedTx → List String → List NormalizedTx
  | [], _ => []
  | tx :: rest, seen =>
    if tx.hash ∈ seen then dedupAux rest seen
    else tx :: dedupAux rest (tx.hash :: seen)

/-- `_process_transactions` (scanner.py lines 154 to 195): transform each raw
record, skipping the ones that raise, then filter duplicate hashes keeping
first occurrences. -/
def processTransactions (now : Int) (raws : List RawTransfer) : List NormalizedTx :=
  dedupAux (raws.filterMap (processTx now)) []

/-! ## The fetcher

`_get_token_transfers` (scanner.py lines 97 to 152), embedded at the envelope
level: the HTTP exchange is a list of envelope responses consumed in order, one
per attempt.  On a non-success status whose message contains `rate limit`
(case-insensitively) the code sleeps one second and calls itself again with no
retry counter of any kind; on any other non-success status it raises. -/

/-- The check `'rate limit' in error_msg.lower()`. -/
def containsRateLimit (msg : String) : Bool :=
  containsSub "rate limit" (pyLower msg)

/-- Outcome of `_get_token_transfers` on a finite response stream. -/
inductive FetchOutcome where
  | success (txs : List RawTransfer)
  | apiError (msg : String)
  | exhaustedStream
  deriving DecidableEq

/-- `_get_token_transfers` over the modelled response stream.  The outcome
`exhaustedStream` means the finite stream ran out while the code was still
retrying: the real code would still be inside its unbounded recursion. -/
def getTokenTransfers : List ApiResponse → FetchOutcome
  | [] => .exhaustedStream
  | r :: rest =>
    if r.status ≠ "1" then
      if containsRateLimit r.message then getTokenTransfers rest
      else .apiError ("BSCScan API Error: " ++ r.message)
    else .success r.result

/-- Number of rate-limit retries `_get_token_transfers` performs on the given
stream before reaching a response it does not retry on. -/
def rateLimitRetryCount : List ApiResponse → Nat
  | [] => 0
  | r :: rest =>
    if r.status ≠ "1" ∧ containsRateLimit r.message then
      1 + rateLimitRetryCount rest
    else 0

/-! ## The rate limiter

`RateLimiter.wait` (scanner.py lines 283 to 300).  Time is an explicit
rational clock; `time.sleep(d)` advances it by exactly `d`.  The method body
runs under `with self.lock:` where `self.lock` is a NON-reentrant
`threading.Lock`, and the recursive `self.wait()` after the sleep happens
while that lock is still held, so the inner acquisition blocks forever.  The
embedding carries the held-lock flag explicitly and returns `none` when the
call never terminates; `fuel` bounds the recursion depth so the function is
total, and a result of `none` at EVERY fuel is genuine non-termination. -/

/-- One call of `RateLimiter.wait`, given fuel, the configured limit, the
current `self.requests` list (oldest first), the clock, and whether the
calling thread already holds `self.lock`.  Returns the new request list and
the clock when the call returns. -/
def waitAux : Nat → Nat → List ℚ → ℚ → Bool → Option (List ℚ × ℚ)
  | 0, _, _, _, _ => none
  | _ + 1, _, _, _, true => none
  | fuel + 1, limit, reqs, now, false =>
    let reqs1 := reqs.filter (fun r => now - r < 1)
    if limit ≤ reqs1.length then
      let sleepTime := 1 - (now - reqs1.headD 0)
      if 0 < sleepTime then
        waitAux fuel limit reqs1 (now + sleepTime) true
      else some (reqs1 ++ [now], now)
    else some (reqs1 ++ [now], now)

/-! ## The scan orchestration

`scan_wallet_transactions` (scanner.py lines 42 to 76).  Every exception
raised inside the body, including the invalid-address `ValueError` and
anything `_get_token_transfers` raises, is caught by the blanket handler,
which displays a critical error through the terminal interface and then
RETURNS THE EMPTY LIST.  The embedding returns the transaction list paired
with a flag recording whether the critical-error path ran, and `none` when
the fetch never returns within the modelled stream. -/

def scanWalletTransactions (address : String) (responses : List ApiResponse)
    (now : Int) : Option (List NormalizedTx × Bool) :=
  if validateWalletAddress address = false then some ([], true)
  else
    match getTokenTransfers responses with
    | .exhaustedStream => none
    | .apiError _ => some ([], true)
    | .success txs =>
      if txs = [] then some ([], false)
      else some (processTransactions now txs, false)

/-! ## Helper lemmas -/

/-- Acquiring the non-reentrant lock while the same thread already holds it
blocks forever, whatever the fuel. -/
theorem waitAux_locked (fuel limit : Nat) (reqs : List ℚ) (now : ℚ) :
    waitAux fuel limit reqs now true = none := by
  cases fuel <;> rfl

/-- The duplicate filter only ever drops elements: its output is a sublist of
its input, so surviving records keep their relative order. -/
theorem dedupAux_sublist (l : List NormalizedTx) (seen : List String) :
    List.Sublist (dedupAux l seen) l := by
  induction l generalizing seen with
  | nil => simp [dedupAux]
  | cons tx rest ih =>
    by_cases h : tx.hash ∈ seen
    · rw [dedupAux, if_pos h]
      exact (ih seen).cons tx
    · rw [dedupAux, if_neg h]
      exact (ih (tx.hash :: seen)).cons₂ tx

/-- The duplicate filter keeps exactly one record per hash that occurs in the
input and is not in `seen`, and none for a hash in `seen`. -/
theorem dedupAux_countP (l : List NormalizedTx) (seen : List String) (h : String) :
    (dedupAux l seen).countP (fun n => n.hash == h) =
      if h ∈ seen then 0 else if h ∈ l.map NormalizedTx.hash then 1 else 0 := by
  induction l generalizing seen with
  | nil => simp [dedupAux]
  | cons tx rest ih =>
    by_cases hs : tx.hash ∈ seen
    · rw [dedupAux, if_pos hs, ih]
      by_cases hh : h ∈ seen
      · simp [hh]
      · have hne : ¬h = tx.hash := fun e => hh (e ▸ hs)
        simp [hh, hne]
    · rw [dedupAux, if_neg hs, List.countP_cons, ih]
      by_cases hh : h = tx.hash
      · have h4 : h ∉ seen := fun e => hs (hh ▸ e)
        simp [hh, hs, h4]
      · have h3 : ¬tx.hash = h := fun e => hh e.symm
        by_cases h4 : h ∈ seen
        · simp [List.mem_cons, hh, h3, h4]
        · simp [List.mem_cons, hh, h3, h4]

/-- For a hash not yet seen, the first matching record of the filtered list is
the first matching record of the input. -/
theorem dedupAux_find (l : List NormalizedTx) (seen : List String) (h : String)
    (hns : h ∉ seen) :
    (dedupAux l seen).find? (fun n => n.hash == h) =
      l.find? (fun n => n.hash == h) := by
  induction l generalizing seen with
  | nil => simp [dedupAux]
  | cons tx rest ih =>
    by_cases hh : tx.hash = h
    · subst hh
      rw [dedupAux, if_neg hns]
      have hp : ((fun n : NormalizedTx => n.hash == tx.hash) tx) = true := by simp
      rw [List.find?_cons_of_pos (p := fun n : NormalizedTx => n.hash == tx.hash) _ hp,
        List.find?_cons_of_pos (p := fun n : NormalizedTx => n.hash == tx.hash) _ hp]
    · have hp : ¬((fun n : NormalizedTx => n.hash == h) tx) = true := by simp [hh]
      by_cases hs : tx.hash ∈ seen
      · rw [dedupAux, if_pos hs, ih seen hns,
          List.find?_cons_of_neg (p := fun n : NormalizedTx => n.hash == h) _ hp]
      · rw [dedupAux, if_neg hs,
          List.find?_cons_of_neg (p := fun n : NormalizedTx => n.hash == h) _ hp,
          List.find?_cons_of_neg (p := fun n : NormalizedTx => n.hash == h) _ hp]
        have h3 : ¬h = tx.hash := fun e => hh e.symm
        exact ih (tx.hash :: seen) (by simp [List.mem_cons, hns, h3])

/-- On input with pairwise distinct hashes, none of them seen yet, the
duplicate filter is the identity. -/
theorem dedupAux_eq_self (l : List NormalizedTx) (seen : List String)
    (hnd : (l.map NormalizedTx.hash).Nodup) (hdisj : ∀ tx ∈ l, tx.hash ∉ seen) :
    dedupAux l seen = l := by
  induction l generalizing seen with
  | nil => rfl
  | cons tx rest ih =>
    rw [dedupAux, if_neg (hdisj tx (List.mem_cons_self tx rest))]
    have hnd2 : (rest.map NormalizedTx.hash).Nodup := (List.nodup_cons.mp hnd).2
    have hhd : tx.hash ∉ rest.map NormalizedTx.hash := (List.nodup_cons.mp hnd).1
    congr 1
    refine ih (tx.hash :: seen) hnd2 (fun ty hty he => ?_)
    rcases List.mem_cons.mp he with he1 | he1
    · exact hhd (he1 ▸ List.mem_map_of_mem NormalizedTx.hash hty)
    · exact hdisj ty (List.mem_cons_of_mem tx hty) he1

/-- `filterMap` of an everywhere-defined partial function preserves length. -/
theorem length_filterMap_of_isSome {α β : Type} (f : α → Option β) (l : List α)
    (h : ∀ a ∈ l, (f a).isSome = true) : (l.filterMap f).length = l.length := by
  induction l with
  | nil => rfl
  | cons a rest ih =>
    obtain ⟨b, hb⟩ := Option.isSome_iff_exists.mp (h a (List.mem_cons_self a rest))
    rw [List.filterMap_cons, hb, List.length_cons,
      ih (fun x hx => h x (List.mem_cons_of_mem a hx)), List.length_cons]

/-- The hash a successfully processed record carries is the raw hash with the
`N/A` default. -/
theorem processTx_hash (now : Int) (tx : RawTransfer) (n : NormalizedTx)
    (h : processTx now tx = some n) : n.hash = tx.hash.getD "N/A" := by
  unfold processTx at h
  split at h
  · exact absurd h (by simp)
  · cases h
    rfl

/-- Under the hypotheses that every record processes successfully and no
present hash is the literal string `N/A`, the first processed record with
hash `N/A` is the image of the first raw record lacking a hash. -/
theorem filterMap_find_NA (now : Int) (raws : List RawTransfer)
    (ha : ∀ tx ∈ raws, (processTx now tx).isSome = true)
    (hb : ∀ tx ∈ raws, tx.hash ≠ some "N/A") :
    (raws.filterMap (processTx now)).find? (fun n => n.hash == "N/A") =
      (raws.find? (fun tx => tx.hash.isNone)).bind (processTx now) := by
  induction raws with
  | nil => rfl
  | cons tx rest ih =>
    obtain ⟨n, hn⟩ := Option.isSome_iff_exists.mp
      (ha tx (List.mem_cons_self tx rest))
    rw [List.filterMap_cons_some hn]
    have hhash : n.hash = tx.hash.getD "N/A" := processTx_hash now tx n hn
    cases htx : tx.hash with
    | none =>
      have h1 : ((fun n : NormalizedTx => n.hash == "N/A") n) = true := by
        simp [hhash, htx]
      have h2 : ((fun tx : RawTransfer => tx.hash.isNone) tx) = true := by
        simp [htx]
      rw [List.find?_cons_of_pos (p := fun n : NormalizedTx => n.hash == "N/A") _ h1,
        List.find?_cons_of_pos (p := fun tx : RawTransfer => tx.hash.isNone) _ h2,
        Option.some_bind]
      exact hn.symm
    | some s =>
      have hs : s ≠ "N/A" := by
        intro he
        exact hb tx (List.mem_cons_self tx rest) (by rw [htx, he])
      have h1 : ¬((fun n : NormalizedTx => n.hash == "N/A") n) = true := by
        simp [hhash, htx, hs]
      have h2 : ¬((fun tx : RawTransfer => tx.hash.isNone) tx) = true := by
        simp [htx]
      rw [List.find?_cons_of_neg (p := fun n : NormalizedTx => n.hash == "N/A") _ h1,
        List.find?_cons_of_neg (p := fun tx : RawTransfer => tx.hash.isNone) _ h2]
      exact ih (fun x hx => ha x (List.mem_cons_of_mem tx hx))
        (fun x hx => hb x (List.mem_cons_of_mem tx hx))

/-- A nonempty all-hex-digit list is accepted by the base-16 parse model. -/
theorem pyIntBase16Ok_of_allHex (l : List Char) (hne : l ≠ [])
    (hall : ∀ c ∈ l, isHexDigitChar c = true) : pyIntBase16Ok l = true := by
  cases l with
  | nil => exact absurd rfl hne
  | cons c1 l1 =>
    have hc1 := hall c1 (List.mem_cons_self c1 l1)
    have hsign : ¬(c1 = '-' ∨ c1 = '+') := by
      rintro (rfl | rfl) <;> revert hc1 <;> decide
    rw [pyIntBase16Ok, if_neg hsign]
    cases l1 with
    | nil =>
      show allHexDigits [c1] = true
      simp [allHexDigits, hc1]
    | cons c2 rest =>
      have hc2 := hall c2 (List.mem_cons_of_mem c1 (List.mem_cons_self c2 rest))
      have hpre : ¬(c1 = '0' ∧ (c2 = 'x' ∨ c2 = 'X')) := by
        rintro ⟨-, rfl | rfl⟩ <;> revert hc2 <;> decide
      rw [hexBody, if_neg hpre]
      simp only [allHexDigits, List.all_eq_true, Bool.and_eq_true]
      exact ⟨by simp, hall⟩

/-- An all-hex-digit address of stripped length 40 passes validation, with or
without the `0x` prefix. -/
theorem validate_accepts_allHex (l : List Char) (hlen : l.length = 40)
    (hall : ∀ c ∈ l, isHexDigitChar c = true) :
    validateWalletAddress (String.mk l) = true
    ∧ validateWalletAddress ("0x" ++ String.mk l) = true := by
  cases l with
  | nil => simp at hlen
  | cons c1 l1 =>
    cases l1 with
    | nil => simp at hlen
    | cons c2 rest =>
      have hc2 := hall c2 (List.mem_cons_of_mem c1 (List.mem_cons_self c2 rest))
      have hx : ¬(c1 = '0' ∧ c2 = 'x') := by
        rintro ⟨-, rfl⟩
        revert hc2
        decide
      constructor
      · have hne : String.mk (c1 :: c2 :: rest) ≠ "" := by
          intro he
          have hd : (c1 :: c2 :: rest) = ([] : List Char) := congrArg String.data he
          simp at hd
        simp only [validateWalletAddress]
        rw [if_neg hne]
        have ht : (String.mk (c1 :: c2 :: rest)).toList = c1 :: c2 :: rest := rfl
        rw [ht, stripHexPrefix, if_neg hx, if_neg (by simp [hlen])]
        exact pyIntBase16Ok_of_allHex _ (by simp) hall
      · have hne : ("0x" ++ String.mk (c1 :: c2 :: rest)) ≠ "" := by
          intro he
          have hd : ('0' :: 'x' :: c1 :: c2 :: rest) = ([] : List Char) :=
            congrArg String.data he
          simp at hd
        simp only [validateWalletAddress]
        rw [if_neg hne]
        have ht : ("0x" ++ String.mk (c1 :: c2 :: rest)).toList =
            '0' :: 'x' :: c1 :: c2 :: rest := rfl
        have h0x : ('0' : Char) = '0' ∧ ('x' : Char) = 'x' := ⟨rfl, rfl⟩
        rw [ht, stripHexPrefix, if_pos h0x, if_neg (by simp [hlen])]
        exact pyIntBase16Ok_of_allHex _ (by simp) hall

/-- A stripped length other than 40 is always rejected. -/
theorem validate_rejects_wrong_length (s : String)
    (hlen : (stripHexPrefix s.toList).length ≠ 40) :
    validateWalletAddress s = false := by
  by_cases he : s = ""
  · subst he
    rfl
  · simp only [validateWalletAddress]
    rw [if_neg he, if_pos hlen]

/-- C4 counterexample: the address consisting of a minus sign followed by 39
`f` characters has a stripped form of length 40 containing a character that
is not a hex digit, yet validation ACCEPTS it, because the code delegates the
digit check to Python `int(stripped, 16)`, which parses a leading sign.  The
claim says every such string is rejected. -/
theorem C4_counterexample :
    validateWalletAddress (String.mk ('-' :: List.replicate 39 'f')) = true
    ∧ (stripHexPrefix (String.mk ('-' :: List.replicate 39 'f')).toList).length = 40
    ∧ '-' ∈ stripHexPrefix (String.mk ('-' :: List.replicate 39 'f')).toList
    ∧ isHexDigitChar '-' = false := by
  decide

/-- C4 amended: validation accepts every string that is exactly 40 hex digits
after stripping an optional `0x` prefix, and rejects every string whose
stripped form has length other than 40; but a length-40 stripped form need
not be pure hex digits to be accepted: anything Python `int(stripped, 16)`
parses, such as a leading sign, also passes. -/
theorem C4_validateWalletAddress_amended :
    (∀ l : List Char, l.length = 40 → (∀ c ∈ l, isHexDigitChar c = true) →
      validateWalletAddress (String.mk l) = true
      ∧ validateWalletAddress ("0x" ++ String.mk l) = true)
    ∧ (∀ s : String, (stripHexPrefix s.toList).length ≠ 40 →
      validateWalletAddress s = false)
    ∧ validateWalletAddress (String.mk ('-' :: List.replicate 39 'f')) = true := by
  exact ⟨validate_accepts_allHex, validate_rejects_wrong_length, by decide⟩

/-- C4 witness: the amended theorem applied to one concrete valid address and
one concrete too-short address. -/
theorem C4_witness :
    validateWalletAddress "0123456789abcdef0123456789abcdef01234567" = true
    ∧ validateWalletAddress "0x12" = false := by
  refine ⟨(C4_validateWalletAddress_amended.1
    ("0123456789abcdef0123456789abcdef01234567").toList (by decide) (by decide)).1,
    C4_validateWalletAddress_amended.2.1 "0x12" (by decide)⟩

/-- C1: the fetcher has NO retry bound at all.  For EVERY number `n` of
consecutive rate-limited envelopes, `_get_token_transfers` sleeps and retries
through all of them and then returns the next successful result; in
particular it retries more than any `max_retries` bound (the config default
is 3) and no `RateLimitExceeded` failure exists anywhere in its code path.
The claim (and the spec text it comes from, which its own design note admits
is a correction of the source) requires the retries to stop after
`max_retries` with a `RateLimitExceeded` error. -/
theorem C1_getTokenTransfers_unbounded_retry (n : Nat) (txs : List RawTransfer) :
    getTokenTransfers
        (List.replicate n ⟨"0", "Max rate limit reached", []⟩ ++ [⟨"1", "OK", txs⟩])
      = FetchOutcome.success txs
    ∧ rateLimitRetryCount
        (List.replicate n ⟨"0", "Max rate limit reached", []⟩ ++ [⟨"1", "OK", txs⟩])
      = n := by
  have hrl : containsRateLimit "Max rate limit reached" = true := by decide
  have h01 : ¬(("0" : String) = "1") := by decide
  induction n with
  | zero =>
    simp [getTokenTransfers, rateLimitRetryCount]
  | succ n ih =>
    rw [List.replicate_succ, List.cons_append]
    constructor
    · rw [getTokenTransfers]
      rw [if_pos h01, if_pos hrl]
      exact ih.1
    · rw [rateLimitRetryCount]
      rw [if_pos ⟨h01, hrl⟩, ih.2]
      exact Nat.add_comm 1 n

/-- C2: the (N+1)th admission within one rolling window DEADLOCKS instead of
completing after the remaining window time.  With `limit = 1`, one admission
recorded at time 0 and a second `wait()` call at time 1/2, the code sleeps
the correct 1/2 second but then calls `self.wait()` recursively while STILL
HOLDING the non-reentrant `threading.Lock`, so the inner acquisition blocks
forever: the call returns `none` at every fuel.  The first conjunct is that
non-termination; the second shows a first call under the limit does complete
and records its admission, so the deadlock is not vacuous. -/
theorem C2_rateLimiter_wait_deadlock :
    (∀ fuel : Nat, waitAux fuel 1 [0] (1/2) false = none)
    ∧ waitAux 1 1 [] 0 false = some ([0], 0) := by
  constructor
  · intro fuel
    cases fuel with
    | zero => rfl
    | succ m =>
      have hstep : waitAux (m + 1) 1 [0] (1/2) false = waitAux m 1 [0] 1 true := by
        rw [waitAux]
        norm_num [List.filter]
      rw [hstep]
      exact waitAux_locked m 1 [0] 1
  · decide

/-! ## Concrete records used by counterexamples and witnesses -/

/-- A transfer of one token at 18 decimals. -/
def txValue18 : RawTransfer :=
  ⟨some "0xaaa1", some "0", some "0xF1", some "0xT1", some "Binance", some "BNB",
    some "1000000000000000000", some "18", none, none⟩

/-- A transfer of five units of a zero-decimals token. -/
def txValue0 : RawTransfer :=
  ⟨some "0xaaa2", none, none, none, some "Token", some "TKN", some "5", some "0",
    none, none⟩

/-- A record whose `tokenDecimal` string is not numeric. -/
def txBadDecimals : RawTransfer :=
  ⟨some "0xaaa3", none, none, none, none, none, some "5", some "abc", none, none⟩

/-- A record whose `value` string is not numeric. -/
def txBadValue : RawTransfer :=
  ⟨some "0xaaa4", none, none, none, none, none, some "zzz", some "18", none, none⟩

/-- A record carrying an explicit but EMPTY `functionName`. -/
def txFnEmpty : RawTransfer :=
  ⟨none, none, none, none, none, none, none, none, some "", none⟩

/-- A record carrying an explicit nonempty `functionName`. -/
def txFnSwap : RawTransfer :=
  ⟨none, none, none, none, none, none, none, none, some "swap", none⟩

/-- C5 counterexample: on a record whose `tokenDecimal` does not parse as an
integer, the claim says the token field falls back to the amount-free
`"{symbol} ({name})"` form instead of failing the record; in the code the
unguarded `int(tx.get('tokenDecimal', '18'))` raises BEFORE the guarded
block, `_format_token_info` produces no string at all, and the whole record
is skipped by the batch loop. -/
theorem C5_counterexample :
    formatTokenInfo txBadDecimals = none
    ∧ processTransactions 0 [txBadDecimals] = [] := by
  decide

/-- C5 amended: both concrete amounts of the claim hold, and a non-numeric
`value` falls back to the amount-free form; but a non-numeric `tokenDecimal`
raises out of `_format_token_info` (result `none`) instead of falling back,
so the record fails and is skipped by the enclosing loop. -/
theorem C5_formatTokenInfo_amended :
    formatTokenInfo txValue18 = some "1.000000 BNB (Binance)"
    ∧ formatTokenInfo txValue0 = some "5.000000 TKN (Token)"
    ∧ (∀ tx : RawTransfer, pyIntOfString (tx.tokenDecimal.getD "18") = none →
        formatTokenInfo tx = none)
    ∧ (∀ tx : RawTransfer, ∀ d : Int,
        pyIntOfString (tx.tokenDecimal.getD "18") = some d →
        pyIntOfString (tx.value.getD "0") = none →
        formatTokenInfo tx =
          some (tx.tokenSymbol.getD "UNK" ++ " (" ++ tx.tokenName.getD "Unknown" ++ ")"))
    ∧ (∀ tx : RawTransfer, ∀ d v : Int,
        pyIntOfString (tx.tokenDecimal.getD "18") = some d →
        pyIntOfString (tx.value.getD "0") = some v →
        formatTokenInfo tx =
          some (formatFixed6 v d ++ " " ++ tx.tokenSymbol.getD "UNK" ++ " ("
            ++ tx.tokenName.getD "Unknown" ++ ")")) := by
  refine ⟨by decide, by decide, ?_, ?_, ?_⟩
  · intro tx h
    simp [formatTokenInfo, h]
  · intro tx d h1 h2
    simp [formatTokenInfo, h1, h2]
  · intro tx d v h1 h2
    simp [formatTokenInfo, h1, h2]

/-- C5 witness: the amended theorem applied to the two failure-shape records. -/
theorem C5_witness :
    formatTokenInfo txBadDecimals = none
    ∧ formatTokenInfo txBadValue = some "UNK (Unknown)" := by
  exact ⟨C5_formatTokenInfo_amended.2.2.1 txBadDecimals (by decide),
    C5_formatTokenInfo_amended.2.2.2.1 txBadValue 18 (by decide) (by decide)⟩

/-- C6 counterexample: a record with the explicit function-name field present
but equal to the empty string.  The claim says a present field is used
verbatim, so the method would be `""`; the code tests the field for Python
truthiness, treats the empty string like an absent field, and (with no input
data either) falls through to `"transfer"`. -/
theorem C6_counterexample :
    txFnEmpty.functionName = some "" ∧ extractMethod txFnEmpty = "transfer" := by
  exact ⟨rfl, rfl⟩

/-- C6 amended: a present NONEMPTY function-name field is used verbatim (an
empty one is treated like an absent one); otherwise the first 10 characters
of the input data select from the five-entry signature table, unrecognized
prefixes give `"unknown"`, and absent or empty input data gives
`"transfer"`. -/
theorem C6_extractMethod_amended (tx : RawTransfer) :
    (∀ fn : String, tx.functionName = some fn → fn ≠ "" → extractMethod tx = fn)
    ∧ ((tx.functionName = none ∨ tx.functionName = some "") →
        ((tx.input = none ∨ tx.input = some "") → extractMethod tx = "transfer")
        ∧ (∀ s : String, tx.input = some s → 10 ≤ s.length →
            extractMethod tx = methodMap (String.mk (s.toList.take 10))))
    ∧ methodMap "0xa9059cbb" = "transfer"
    ∧ methodMap "0x23b872dd" = "transferFrom"
    ∧ methodMap "0x095ea7b3" = "approve"
    ∧ methodMap "0xa0712d68" = "mint"
    ∧ methodMap "0x42966c68" = "burn"
    ∧ (∀ sig : String,
        sig ∉ ["0xa9059cbb", "0x23b872dd", "0x095ea7b3", "0xa0712d68", "0x42966c68"] →
        methodMap sig = "unknown") := by
  refine ⟨?_, ?_, by decide, by decide, by decide, by decide, by decide, ?_⟩
  · intro fn hfn hne
    simp [extractMethod, hfn, hne]
  · intro hf
    constructor
    · intro hi
      rcases hf with hf | hf <;> rcases hi with hi | hi <;>
        simp [extractMethod, hf, hi]
    · intro s hs hlen
      have hsne : s ≠ "" := by
        intro e
        subst e
        simp at hlen
      rcases hf with hf | hf <;> simp [extractMethod, hf, hs, hsne, hlen]
  · intro sig hmem
    simp only [List.mem_cons, List.mem_singleton] at hmem
    push_neg at hmem
    obtain ⟨h1, h2, h3, h4, h5⟩ := hmem
    simp [methodMap, h1, h2, h3, h4, h5]

/-- C6 witness: the amended theorem applied to a record with a nonempty
function name and to an unrecognized method signature. -/
theorem C6_witness :
    extractMethod txFnSwap = "swap" ∧ methodMap "0xdeadbeef" = "unknown" := by
  exact ⟨(C6_extractMethod_amended txFnSwap).1 "swap" rfl (by decide),
    (C6_extractMethod_amended txFnSwap).2.2.2.2.2.2.2 "0xdeadbeef" (by decide)⟩

/-- C7 counterexample: at a difference of exactly one hour the code renders
`"60 minutes ago"` where the claim (at least 1 hour) requires `"1 hours
ago"`, because the hour branch tests `diff.seconds > 3600` strictly; at
exactly one minute the code renders `"Just now"` where the claim requires
`"1 minutes ago"`, because the minute branch tests `diff.seconds > 60`
strictly. -/
theorem C7_counterexample :
    calculateAge "0" 3600 = "60 minutes ago"
    ∧ ("60 minutes ago" : String) ≠ "1 hours ago"
    ∧ calculateAge "0" 60 = "Just now"
    ∧ ("Just now" : String) ≠ "1 minutes ago" := by
  decide

/-- C7 amended: with `d` the floor-day count and `s` the remainder seconds of
`now - timestamp` (the `timedelta` decomposition), the code renders
`"{d} days ago"` when `d ≥ 1`, else `"{s/3600} hours ago"` when STRICTLY
`s > 3600`, else `"{s/60} minutes ago"` when STRICTLY `s > 60`, else
`"Just now"`; an unparsable timestamp gives `"Unknown"`. -/
theorem C7_calculateAge_amended (ts : String) (now : Int) :
    (pyIntOfString ts = none → calculateAge ts now = "Unknown")
    ∧ (∀ t : Int, pyIntOfString ts = some t →
        (0 < Int.fdiv (now - t) 86400 →
          calculateAge ts now = toString (Int.fdiv (now - t) 86400) ++ " days ago")
        ∧ (Int.fdiv (now - t) 86400 ≤ 0 →
            3600 < (Int.fmod (now - t) 86400).toNat →
            calculateAge ts now =
              toString ((Int.fmod (now - t) 86400).toNat / 3600) ++ " hours ago")
        ∧ (Int.fdiv (now - t) 86400 ≤ 0 →
            (Int.fmod (now - t) 86400).toNat ≤ 3600 →
            60 < (Int.fmod (now - t) 86400).toNat →
            calculateAge ts now =
              toString ((Int.fmod (now - t) 86400).toNat / 60) ++ " minutes ago")
        ∧ (Int.fdiv (now - t) 86400 ≤ 0 →
            (Int.fmod (now - t) 86400).toNat ≤ 60 →
            calculateAge ts now = "Just now")) := by
  constructor
  · intro h
    simp [calculateAge, h]
  · intro t ht
    refine ⟨?_, ?_, ?_, ?_⟩
    · intro h1
      simp only [calculateAge, ht]
      rw [if_pos h1]
    · intro h1 h2
      simp only [calculateAge, ht]
      rw [if_neg (not_lt.mpr h1), if_pos h2]
    · intro h1 h2 h3
      simp only [calculateAge, ht]
      rw [if_neg (not_lt.mpr h1), if_neg (not_lt.mpr h2), if_pos h3]
    · intro h1 h2
      simp only [calculateAge, ht]
      rw [if_neg (not_lt.mpr h1), if_neg (by omega), if_neg (by omega)]

/-- C7 witness: the amended theorem applied at a two-hour difference. -/
theorem C7_witness : calculateAge "0" 7200 = "2 hours ago" := by
  have h := ((C7_calculateAge_amended "0" 7200).2 0 (by decide)).2.1
    (by decide) (by decide)
  simpa using h

/-- Records sharing the hash `0xabc` whose normalization FAILS (non-numeric
token decimals). -/
def txDupBadA : RawTransfer :=
  ⟨some "0xabc", none, none, some "0xB1", none, none, some "1", some "x", none, none⟩

/-- Second record with hash `0xabc` and non-numeric token decimals. -/
def txDupBadB : RawTransfer :=
  ⟨some "0xabc", none, none, some "0xB2", none, none, some "1", some "y", none, none⟩

/-- First well-formed record with hash `0xabc`. -/
def txDupA : RawTransfer :=
  ⟨some "0xabc", some "0", some "0xA1", some "0xB1", some "Tok", some "TK",
    some "5", some "0", none, none⟩

/-- Second well-formed record with hash `0xabc`, different recipient. -/
def txDupB : RawTransfer :=
  ⟨some "0xabc", some "0", some "0xA1", some "0xB2", some "Tok", some "TK",
    some "7", some "0", none, none⟩

/-- C3 counterexample: an input whose two records share the repeated hash
`0xabc` but both fail per-record normalization (their `tokenDecimal` does not
parse), so the loop skips both and the output contains ZERO records for that
hash, not the exactly one record the claim promises. -/
theorem C3_counterexample :
    txDupBadA.hash = some "0xabc" ∧ txDupBadB.hash = some "0xabc"
    ∧ processTransactions 0 [txDupBadA, txDupBadB] = [] := by
  decide

/-- C3 amended: records failing per-record normalization are skipped first;
for any hash present in the surviving transformed sequence (in particular any
repeated one), the output keeps exactly one record with that hash, namely the
first surviving occurrence, and the output is a sublist of the transformed
sequence, so distinct hashes keep their relative order. -/
theorem C3_dedup_law (now : Int) (raws : List RawTransfer) (h : String)
    (hmem : h ∈ (raws.filterMap (processTx now)).map NormalizedTx.hash) :
    (processTransactions now raws).countP (fun n => n.hash == h) = 1
    ∧ (processTransactions now raws).find? (fun n => n.hash == h)
        = (raws.filterMap (processTx now)).find? (fun n => n.hash == h)
    ∧ List.Sublist (processTransactions now raws)
        (raws.filterMap (processTx now)) := by
  refine ⟨?_, ?_, ?_⟩
  · rw [processTransactions, dedupAux_countP]
    simp [hmem]
  · exact dedupAux_find _ _ _ (by simp)
  · exact dedupAux_sublist _ _

/-- C3 witness: the amended law applied to two well-formed records sharing
hash `0xabc`. -/
theorem C3_witness :
    (processTransactions 0 [txDupA, txDupB]).countP (fun n => n.hash == "0xabc") = 1
    ∧ (processTransactions 0 [txDupA, txDupB]).find? (fun n => n.hash == "0xabc")
        = ([txDupA, txDupB].filterMap (processTx 0)).find? (fun n => n.hash == "0xabc")
    ∧ List.Sublist (processTransactions 0 [txDupA, txDupB])
        ([txDupA, txDupB].filterMap (processTx 0)) :=
  C3_dedup_law 0 [txDupA, txDupB] "0xabc" (by decide)

/-- A well-formed record with a hash distinct from `0xaaa3`. -/
def txGoodHashA : RawTransfer :=
  ⟨some "0xh1", some "0", none, none, none, none, some "1", some "0", none, none⟩

/-- C9 counterexample: two records with pairwise distinct hashes, of which
the second fails per-record normalization (non-numeric `tokenDecimal`), so
the output has length 1 where the claim promises the input length 2. -/
theorem C9_counterexample :
    [txGoodHashA, txBadDecimals].map RawTransfer.hash
        = [some "0xh1", some "0xaaa3"]
    ∧ (processTransactions 0 [txGoodHashA, txBadDecimals]).length = 1 := by
  decide

/-- C9 amended: when every record normalizes successfully and the transformed
hashes are pairwise distinct, normalization is exactly the pointwise
transform: same length, same order, each record the transform of the
corresponding input record. -/
theorem C9_normalize_nodup (now : Int) (raws : List RawTransfer)
    (h1 : ∀ tx ∈ raws, (processTx now tx).isSome = true)
    (h2 : ((raws.filterMap (processTx now)).map NormalizedTx.hash).Nodup) :
    processTransactions now raws = raws.filterMap (processTx now)
    ∧ (raws.filterMap (processTx now)).length = raws.length := by
  constructor
  · exact dedupAux_eq_self _ [] h2 (fun tx _ => List.not_mem_nil tx.hash)
  · exact length_filterMap_of_isSome _ _ h1

/-- C9 witness: the amended theorem applied to two well-formed records with
distinct hashes. -/
theorem C9_witness :
    processTransactions 0 [txDupA, txValue0]
        = [txDupA, txValue0].filterMap (processTx 0)
    ∧ ([txDupA, txValue0].filterMap (processTx 0)).length
        = [txDupA, txValue0].length :=
  C9_normalize_nodup 0 [txDupA, txValue0] (by decide) (by decide)

/-- A hashless record that fails normalization (non-numeric decimals). -/
def txNoHashBad : RawTransfer :=
  ⟨none, none, some "0xAAA", none, none, none, some "1", some "x", none, none⟩

/-- A hashless record that normalizes successfully. -/
def txNoHashGood : RawTransfer :=
  ⟨none, none, some "0xBBB", none, none, none, some "1", some "0", none, none⟩

/-- First well-formed hashless record. -/
def txNoHash1 : RawTransfer :=
  ⟨none, some "0", some "0xC1", some "0xD1", some "T", some "T1", some "1",
    some "0", none, none⟩

/-- Second well-formed hashless record. -/
def txNoHash2 : RawTransfer :=
  ⟨none, some "0", some "0xC2", some "0xD2", some "T", some "T2", some "2",
    some "0", none, none⟩

/-- C10 counterexample: both records lack a hash; the claim says the single
surviving `N/A` record is the transform of the FIRST hashless record (here
with sender `0xAAA`), but that record fails per-record normalization and is
skipped, so the surviving record is the transform of the SECOND one (its
lowercased sender `0xbbb` shows which). -/
theorem C10_counterexample :
    txNoHashBad.hash = none ∧ txNoHashGood.hash = none
    ∧ processTx 0 txNoHashBad = none
    ∧ (processTransactions 0 [txNoHashBad, txNoHashGood]).map NormalizedTx.fromAddr
        = ["0xbbb"] := by
  decide

/-- C10 amended: a hashless record that normalizes at all normalizes to the
sentinel hash `N/A`; when every record normalizes successfully, no present
hash is the literal string `N/A`, and at least two records are hashless,
the output contains exactly one record with hash `N/A`, the transform of the
first hashless record, later hashless transactions being silently dropped. -/
theorem C10_missing_hash (now : Int) (raws : List RawTransfer)
    (ha : ∀ tx ∈ raws, (processTx now tx).isSome = true)
    (hb : ∀ tx ∈ raws, tx.hash ≠ some "N/A")
    (hc : 2 ≤ raws.countP (fun tx => tx.hash.isNone)) :
    (∀ tx n, tx ∈ raws → processTx now tx = some n → tx.hash = none →
      n.hash = "N/A")
    ∧ (processTransactions now raws).countP (fun n => n.hash == "N/A") = 1
    ∧ (processTransactions now raws).find? (fun n => n.hash == "N/A")
        = (raws.find? (fun tx => tx.hash.isNone)).bind (processTx now) := by
  refine ⟨?_, ?_, ?_⟩
  · intro tx n htx hn hh
    rw [processTx_hash now tx n hn, hh]
    rfl
  · have hpos : 0 < raws.countP (fun tx => tx.hash.isNone) := by omega
    obtain ⟨tx, htx, hp⟩ := List.countP_pos_iff.mp hpos
    obtain ⟨n, hn⟩ := Option.isSome_iff_exists.mp (ha tx htx)
    have hnh : n.hash = "N/A" := by
      rw [processTx_hash now tx n hn, Option.isNone_iff_eq_none.mp hp]
      rfl
    have hmem : "N/A" ∈ (raws.filterMap (processTx now)).map NormalizedTx.hash := by
      refine List.mem_map.mpr ⟨n, ?_, hnh⟩
      exact List.mem_filterMap.mpr ⟨tx, htx, hn⟩
    rw [processTransactions, dedupAux_countP]
    simp [hmem]
  · rw [processTransactions, dedupAux_find _ _ _ (by simp)]
    exact filterMap_find_NA now raws ha hb

/-- C10 witness: the amended theorem applied to two well-formed hashless
records. -/
theorem C10_witness :
    (processTransactions 0 [txNoHash1, txNoHash2]).countP
        (fun n => n.hash == "N/A") = 1
    ∧ (processTransactions 0 [txNoHash1, txNoHash2]).find?
        (fun n => n.hash == "N/A")
        = ([txNoHash1, txNoHash2].find? (fun tx => tx.hash.isNone)).bind
            (processTx 0) :=
  (C10_missing_hash 0 [txNoHash1, txNoHash2] (by decide) (by decide)
    (by decide)).2

/-- C8 counterexample: a scan that FAILS (invalid address) returns the empty
list to its caller, exactly the value a successful scan of a wallet with no
transfers returns; only the terminal error display distinguishes them, the
caller of `scan_wallet_transactions` cannot.  The claim says a failure is
reported to the caller as a failed scan and that an empty result is never
returned as if it were a success. -/
theorem C8_counterexample :
    scanWalletTransactions "not-an-address" [] 0 = some ([], true)
    ∧ scanWalletTransactions "0xc51beb5b222aed7f0b56042f04895ee41886b763"
        [⟨"1", "OK", []⟩] 0 = some ([], false)
    ∧ (scanWalletTransactions "not-an-address" [] 0).map Prod.fst
        = (scanWalletTransactions "0xc51beb5b222aed7f0b56042f04895ee41886b763"
            [⟨"1", "OK", []⟩] 0).map Prod.fst := by
  decide

/-- C8 amended: every failure (invalid address, API error) aborts the scan
and is reported through the terminal event sink, after which the scan
RETURNS THE EMPTY LIST, the same caller-visible value as a genuinely empty
fetch, which returns the empty list with no error event; a nonempty fetch is
normalized and returned. -/
theorem C8_scan_amended (address : String) (responses : List ApiResponse)
    (now : Int) :
    (validateWalletAddress address = false →
      scanWalletTransactions address responses now = some ([], true))
    ∧ (∀ msg, validateWalletAddress address = true →
        getTokenTransfers responses = FetchOutcome.apiError msg →
        scanWalletTransactions address responses now = some ([], true))
    ∧ (validateWalletAddress address = true →
        getTokenTransfers responses = FetchOutcome.success [] →
        scanWalletTransactions address responses now = some ([], false))
    ∧ (∀ txs, validateWalletAddress address = true →
        getTokenTransfers responses = FetchOutcome.success txs → txs ≠ [] →
        scanWalletTransactions address responses now
          = some (processTransactions now txs, false)) := by
  refine ⟨?_, ?_, ?_, ?_⟩
  · intro h
    simp [scanWalletTransactions, h]
  · intro msg h1 h2
    simp [scanWalletTransactions, h1, h2]
  · intro h1 h2
    simp [scanWalletTransactions, h1, h2]
  · intro txs h1 h2 h3
    simp [scanWalletTransactions, h1, h2, h3]

/-- C8 witness: the amended theorem applied to an invalid address and to an
API-error envelope. -/
theorem C8_witness :
    scanWalletTransactions "xyz" [] 0 = some ([], true)
    ∧ scanWalletTransactions "0xc51beb5b222aed7f0b56042f04895ee41886b763"
        [⟨"0", "NOTOK", []⟩] 0 = some ([], true) := by
  exact ⟨(C8_scan_amended "xyz" [] 0).1 (by decide),
    (C8_scan_amended "0xc51beb5b222aed7f0b56042f04895ee41886b763"
        [⟨"0", "NOTOK", []⟩] 0).2.1 "BSCScan API Error: NOTOK"
      (by decide) (by decide)⟩

end AliceBot
